import Mathlib

/-!
Verification of the video decode-and-present pipeline in
`src/core/video_decode.c` (webgpu-native-examples).

The C file is shallowly embedded: pure computations (pixel conversion,
pacing arithmetic) become Lean functions on lists / integers / rationals;
the stateful decode loop becomes a recursion over an environment trace
recording the return codes of the FFmpeg collaborator calls
(av_read_frame, avcodec_send_packet, avcodec_receive_frame); the
process-wide session globals become an explicit `Session` record.
-/

namespace VideoDecode

/-! ## Constants from the FFmpeg headers used by the source -/

/-- `AV_NOPTS_VALUE` = INT64_MIN. -/
def AV_NOPTS_VALUE : Int := -(2 ^ 63)

/-- `AVERROR(EAGAIN)` on Linux (= -EAGAIN = -11). -/
def AVERROR_EAGAIN : Int := -11

/-- `AVERROR_EOF` (FFERRTAG of "EOF "). -/
def AVERROR_EOF : Int := -541478725

/-- `AVERROR(ENOMEM)` on Linux (= -ENOMEM = -12). -/
def AVERROR_ENOMEM : Int := -12

/-! ## Frames and the pixel converter (`convert_to_rgba8888`)

An `AVFrame` after the `sws_scale` step is modelled by the bytes of its
first plane `data[0]` plus its row stride `linesize[0]`. -/

structure Frame where
  data0 : List Nat
  linesize : Nat
deriving DecidableEq

/-- Reading one byte from the frame's first plane (pointer arithmetic on
`frame->data[0]`). -/
def srcByte (f : Frame) (i : Nat) : Nat := f.data0.getD i 0

/-- `memcpy(dst, frame->data[0] + start, n)`: the `n` bytes starting at
byte offset `start` of the first plane, one by one. -/
def memBytes (f : Frame) (start : Nat) : Nat → List Nat
  | 0 => []
  | n + 1 => srcByte f start :: memBytes f (start + 1) n

/-- The inner `for (x ...)` loop of the general path: copy `n` pixels of
4 bytes each, advancing `src8` one byte per copied byte. -/
def copyPixels (f : Frame) (srcOff : Nat) : Nat → List Nat
  | 0 => []
  | n + 1 =>
      srcByte f srcOff :: srcByte f (srcOff + 1) :: srcByte f (srcOff + 2) ::
        srcByte f (srcOff + 3) :: copyPixels f (srcOff + 4) n

/-- `convert_to_rgba8888(frame, ofstx, ofsty, width, height)`: the bytes it
writes into `s_decode_buf`.  Zero offsets take the `memcpy` fast path;
otherwise each destination row `y` is copied pixel-by-pixel from source
row `y + ofsty`, starting `ofstx * 4` bytes in, rows addressed by
`frame->linesize[0]`. -/
def convert_to_rgba8888 (f : Frame) (ofstx ofsty width height : Nat) : List Nat :=
  if ofstx = 0 ∧ ofsty = 0 then
    memBytes f 0 (width * height * 4)
  else
    (List.range height).flatMap
      (fun y => copyPixels f ((y + ofsty) * f.linesize + ofstx * 4) width)

/-! ## The published frame buffer (`s_decode_buf` / `get_video_buffer`) -/

/-- The part of the global state the frame publisher touches:
`s_decode_buf`, `NULL` until the first conversion allocates it. -/
structure DecodeState where
  decode_buf : Option (List Nat)
deriving DecidableEq

/-- Initial value of `s_decode_buf` (line 26: `= NULL`). -/
def initState : DecodeState := { decode_buf := none }

/-- `convert_to_rgba8888` as a state transformer: allocates the buffer on
first use and (re)fills it with the converted bytes. -/
def convertS (f : Frame) (ofstx ofsty width height : Nat) (_s : DecodeState) :
    DecodeState :=
  { decode_buf := some (convert_to_rgba8888 f ofstx ofsty width height) }

/-- `get_video_buffer`: `*buf = s_decode_buf`. -/
def get_video_buffer (s : DecodeState) : Option (List Nat) := s.decode_buf

/-! ## Session lifecycle (`open_video_file` and the `s_*` globals)

The process-wide globals written by `open_video_file` become a `Session`
record; the results of the FFmpeg calls it makes become an `OpenEnv`
oracle, so the function is a pure map `OpenEnv → Session → Int × Session`
returning the C return value and the globals after the call. -/

structure Session where
  fmt_ctx : Option Nat
  dec_ctx : Option Nat
  video_st : Option Nat
  video_stream_index : Int
  video_w : Int
  video_h : Int
  crop_w : Int
  crop_h : Int
  video_fmt : Nat
deriving DecidableEq

/-- Results of the collaborator calls issued by `open_video_file`, in
program order, plus the handles/values a successful call yields. -/
structure OpenEnv where
  open_input_ret : Int
  fmt_handle : Nat
  find_stream_info_ret : Int
  find_best_stream_ret : Int
  stream_handle : Nat
  alloc_context_ok : Bool
  dec_handle : Nat
  open2_ret : Int
  dec_width : Int
  dec_height : Int
  dec_pix_fmt : Nat
deriving DecidableEq

/-- `open_video_file` (lines 33-108): each failed check returns early
with a negative code; only after every check passes are the `s_*`
globals written (the `#else` branch sets the crop to the full size). -/
def open_video_file (env : OpenEnv) (s : Session) : Int × Session :=
  if env.open_input_ret < 0 then (-1, s)
  else if env.find_stream_info_ret < 0 then (env.find_stream_info_ret, s)
  else if env.find_best_stream_ret < 0 then (env.find_best_stream_ret, s)
  else if env.alloc_context_ok = false then (AVERROR_ENOMEM, s)
  else if env.open2_ret < 0 then (env.open2_ret, s)
  else
    (0,
      { fmt_ctx := some env.fmt_handle
        dec_ctx := some env.dec_handle
        video_st := some env.stream_handle
        video_stream_index := env.find_best_stream_ret
        video_w := env.dec_width
        video_h := env.dec_height
        crop_w := env.dec_width
        crop_h := env.dec_height
        video_fmt := env.dec_pix_fmt })

/-- The crop offsets computed at the top of `on_frame_decoded`:
`(s_video_w - s_crop_w) * 0.5f` assigned to `int` truncates toward zero,
i.e. truncating division by 2 (`Int.tdiv`). -/
def crop_offsets (s : Session) : Int × Int :=
  (Int.tdiv (s.video_w - s.crop_w) 2, Int.tdiv (s.video_h - s.crop_h) 2)

/-- `on_frame_decoded` (lines 188-203): computes the centered crop
offsets from the session and invokes the converter on the crop
rectangle (the `save_to_ppm` branch is `if (0)`, dead). -/
def on_frame_decoded (sess : Session) (f : Frame) (st : DecodeState) :
    DecodeState :=
  convertS f (crop_offsets sess).1.toNat (crop_offsets sess).2.toNat
    sess.crop_w.toNat sess.crop_h.toNat st

/-! ## Pacing controller (`sleep_to_pts`)

The C arithmetic is `int64 *= double; int64 /= double`: an exact rational
product / quotient truncated toward zero at each int64 store.  Doubles
are idealised as exact rationals. -/

structure TimeBase where
  num : Int
  den : Int
deriving DecidableEq

/-- Truncation toward zero, the semantics of a C double-to-int64
conversion. -/
def ratTrunc (q : ℚ) : ℤ := if 0 ≤ q then ⌊q⌋ else ⌈q⌉

/-- The microsecond deadline `pts_us` computed by `sleep_to_pts`
(lines 218-224): a packet with no decode timestamp counts as 0, the
timestamp is scaled by `av_q2d(time_base) * 1000 * 1000`, then divided
by the playback speed. -/
def deadline_us (dts : Int) (tb : TimeBase) (speed : ℚ) : Int :=
  let pts0 : Int := if dts = AV_NOPTS_VALUE then 0 else dts
  let pts1 : Int :=
    ratTrunc ((pts0 : ℚ) * ((tb.num : ℚ) / (tb.den : ℚ) * 1000 * 1000))
  ratTrunc ((pts1 : ℚ) / speed)

/-- The tail of `sleep_to_pts` (lines 226-229): `av_usleep` is called
with `delay_us` only when `delay_us > 0`; `none` records that no sleep
happened. -/
def sleep_to_pts (dts : Int) (tb : TimeBase) (speed : ℚ) (elapsed_us : Int) :
    Option Int :=
  let delay_us := deadline_us dts tb speed - elapsed_us
  if 0 < delay_us then some delay_us else none

/-- One frame's worth of the inner drain body (lines 287-292):
`sws_scale`, then `sleep_to_pts`, then unconditionally
`on_frame_decoded` — the frame is published whatever the sleep did. -/
structure FrameStep where
  slept_us : Option Int
  published : Bool
deriving DecidableEq

def process_frame (dts : Int) (tb : TimeBase) (speed : ℚ) (elapsed_us : Int) :
    FrameStep :=
  { slept_us := sleep_to_pts dts tb speed elapsed_us, published := true }

/-! ## Decode loop (`decode_thread_main`, lines 258-316)

The environment trace records, for each packet `av_read_frame` yields,
the packet itself, the `avcodec_send_packet` return value, and the
successive `avcodec_receive_frame` return values. -/

structure Packet where
  stream_index : Int
  dts : Int
deriving DecidableEq

structure PacketEnv where
  pkt : Packet
  send_ret : Int
  recvs : List Int
deriving DecidableEq

/-- The inner drain loop (lines 272-293) over the receive return codes:
`AVERROR(EAGAIN)` and `AVERROR_EOF` stop it non-fatally; any other
negative code is the `return 0` path (first component `true`); a
non-negative code is a decoded frame, counted in the second component. -/
def drain : List Int → Bool × Nat
  | [] => (false, 0)
  | r :: rest =>
    if r = AVERROR_EAGAIN then (false, 0)
    else if r = AVERROR_EOF then (false, 0)
    else if r < 0 then (true, 0)
    else
      let d := drain rest
      (d.1, d.2 + 1)

/-- How the packet-read loop (lines 264-297) was left. -/
inductive LoopExit
  | endOfContainer
  | submitError
  | fatalReturn
deriving DecidableEq

/-- Observable record of one run of the packet-read loop: the packets
passed to `av_packet_unref` in order, the number of frames handed to
`on_frame_decoded`, and how the loop ended. -/
structure LoopLog where
  unrefed : List Packet
  published : Nat
  exit : LoopExit
deriving DecidableEq

/-- The packet-read loop `while (av_read_frame(...) >= 0)`.  A packet of
another stream skips the decode block; a failed `avcodec_send_packet`
logs and executes `break`, which in C leaves this `while` loop (skipping
`av_packet_unref`); a fatal receive inside the drain is `return 0`, also
skipping the unref. -/
def read_loop (sidx : Int) : List PacketEnv → LoopLog
  | [] => { unrefed := [], published := 0, exit := .endOfContainer }
  | e :: rest =>
    if e.pkt.stream_index = sidx then
      if e.send_ret < 0 then
        { unrefed := [], published := 0, exit := .submitError }
      else
        let d := drain e.recvs
        if d.1 then
          { unrefed := [], published := d.2, exit := .fatalReturn }
        else
          let l := read_loop sidx rest
          { unrefed := e.pkt :: l.unrefed
            published := d.2 + l.published
            exit := l.exit }
    else
      let l := read_loop sidx rest
      { unrefed := e.pkt :: l.unrefed
        published := l.published
        exit := l.exit }

/-- What the worker thread does after the read loop of one playback
pass: a `fatalReturn` is `return 0` (the thread exits); otherwise the
flush / seek / `avcodec_flush_buffers` sequence runs and the outer
`while (1)` starts the next pass. -/
inductive ThreadStep
  | restart
  | exitThread
deriving DecidableEq

def run_pass (sidx : Int) (packets : List PacketEnv) : ThreadStep :=
  match (read_loop sidx packets).exit with
  | .fatalReturn => .exitThread
  | _ => .restart

/-! ## Basic lemmas about the converter -/

theorem memBytes_length (f : Frame) : ∀ n start, (memBytes f start n).length = n := by
  intro n
  induction n with
  | zero => intro start; rfl
  | succ k ih => intro start; simp [memBytes, ih]

theorem memBytes_eq_drop_take (f : Frame) :
    ∀ n start, start + n ≤ f.data0.length →
      memBytes f start n = (f.data0.drop start).take n := by
  intro n
  induction n with
  | zero => intro start _; simp [memBytes]
  | succ k ih =>
      intro start h
      have hlt : start < f.data0.length := by omega
      have hdrop : f.data0.drop start = f.data0[start] :: f.data0.drop (start + 1) :=
        List.drop_eq_getElem_cons hlt
      have hsrc : srcByte f start = f.data0[start] :=
        List.getD_eq_getElem f.data0 0 hlt
      rw [memBytes, hdrop, hsrc, List.take_succ_cons, ih (start + 1) (by omega)]

theorem copyPixels_eq_memBytes (f : Frame) :
    ∀ n start, copyPixels f start n = memBytes f start (4 * n) := by
  intro n
  induction n with
  | zero => intro start; rfl
  | succ k ih =>
      intro start
      have h4 : 4 * (k + 1) = (4 * k) + 1 + 1 + 1 + 1 := by ring
      rw [copyPixels, ih (start + 4), h4]
      simp [memBytes]

theorem flatMap_range_length {α : Type} (g : Nat → List α) (L : Nat)
    (hlen : ∀ i, (g i).length = L) :
    ∀ n, ((List.range n).flatMap g).length = n * L := by
  intro n
  induction n with
  | zero => simp
  | succ k ih =>
      rw [List.range_succ, List.flatMap_append, List.length_append, ih]
      simp [hlen k]
      ring

theorem flatMap_range_slice {α : Type} (g : Nat → List α) (L : Nat)
    (hlen : ∀ i, (g i).length = L) :
    ∀ n y, y < n →
      (((List.range n).flatMap g).drop (y * L)).take L = g y := by
  intro n
  induction n with
  | zero => intro y hy; omega
  | succ k ih =>
      intro y hy
      rw [List.range_succ, List.flatMap_append]
      have hflat : ((List.range k).flatMap g).length = k * L :=
        flatMap_range_length g L hlen k
      by_cases hyk : y < k
      · have hdle : y * L ≤ ((List.range k).flatMap g).length := by
          rw [hflat]; exact Nat.mul_le_mul (le_of_lt hyk) (le_refl L)
        rw [List.drop_append_of_le_length hdle]
        have hsucc : y * L + L ≤ k * L := by
          have : (y + 1) * L ≤ k * L := Nat.mul_le_mul hyk (le_refl L)
          calc y * L + L = (y + 1) * L := by ring
            _ ≤ k * L := this
        have htle : L ≤ (((List.range k).flatMap g).drop (y * L)).length := by
          rw [List.length_drop, hflat]; omega
        rw [List.take_append_of_le_length htle]
        exact ih y hyk
      · have hyk' : y = k := by omega
        subst hyk'
        rw [← hflat, List.drop_left]
        have : [y].flatMap g = g y := by simp
        rw [this, List.take_of_length_le (le_of_eq (hlen y))]

theorem ratTrunc_mono {a b : ℚ} (h : a ≤ b) : ratTrunc a ≤ ratTrunc b := by
  unfold ratTrunc
  split_ifs with ha hb hb
  · exact Int.floor_le_floor h
  · exact absurd (le_trans ha h) hb
  · have h1 : ⌈a⌉ ≤ (0 : ℤ) := by
      have : a ≤ ((0 : ℤ) : ℚ) := by push_cast; exact le_of_lt (lt_of_not_ge ha)
      exact Int.ceil_le.mpr this
    have h2 : (0 : ℤ) ≤ ⌊b⌋ := Int.floor_nonneg.mpr hb
    omega
  · exact Int.ceil_le_ceil h

/-! ## Claim theorems -/

/-- Claim C3: for every source frame and every valid crop rectangle whose
offsets are both zero, `convert_to_rgba8888` writes into the published
buffer exactly the first `crop_w * crop_h * 4` bytes of the source frame's
first plane, as a single bulk byte-for-byte copy. -/
theorem convert_zero_offset_bulk_copy (f : Frame) (w h : Nat)
    (hlen : w * h * 4 ≤ f.data0.length) :
    convert_to_rgba8888 f 0 0 w h = f.data0.take (w * h * 4) := by
  unfold convert_to_rgba8888
  rw [if_pos ⟨rfl, rfl⟩, memBytes_eq_drop_take f (w * h * 4) 0 (by omega),
    List.drop_zero]

theorem convert_zero_offset_bulk_copy_witness :
    1 * 1 * 4 ≤ (Frame.mk [10, 20, 30, 40, 50] 5).data0.length ∧
    convert_to_rgba8888 ⟨[10, 20, 30, 40, 50], 5⟩ 0 0 1 1
      = (Frame.mk [10, 20, 30, 40, 50] 5).data0.take (1 * 1 * 4) :=
  ⟨by decide,
   convert_zero_offset_bulk_copy ⟨[10, 20, 30, 40, 50], 5⟩ 1 1 (by decide)⟩

/-- Claim C4: for every source frame and every valid crop rectangle with a
nonzero offset, destination row `y` of the converter output is the
`crop_w * 4`-byte slice of source row `y + ofsty` starting at byte column
`ofstx * 4`, rows addressed through the frame's stride `linesize`. -/
theorem convert_nonzero_offset_rows (f : Frame) (ox oy w h : Nat)
    (hne : ¬(ox = 0 ∧ oy = 0))
    (hstride : ox * 4 + w * 4 ≤ f.linesize)
    (hrows : (oy + h) * f.linesize ≤ f.data0.length)
    (y : Nat) (hy : y < h) :
    ((convert_to_rgba8888 f ox oy w h).drop (y * (w * 4))).take (w * 4)
      = (f.data0.drop ((y + oy) * f.linesize + ox * 4)).take (w * 4) := by
  unfold convert_to_rgba8888
  rw [if_neg hne]
  have hrowlen :
      ∀ i, (copyPixels f ((i + oy) * f.linesize + ox * 4) w).length = w * 4 := by
    intro i
    rw [copyPixels_eq_memBytes, memBytes_length]
    ring
  rw [flatMap_range_slice _ (w * 4) hrowlen h y hy, copyPixels_eq_memBytes,
    Nat.mul_comm 4 w]
  apply memBytes_eq_drop_take
  have h1 : (y + oy + 1) * f.linesize ≤ (oy + h) * f.linesize :=
    Nat.mul_le_mul (by omega) (le_refl _)
  have h2 : (y + oy) * f.linesize + f.linesize = (y + oy + 1) * f.linesize := by
    ring
  omega

theorem convert_nonzero_offset_rows_witness :
    ¬((1 : Nat) = 0 ∧ (0 : Nat) = 0) ∧
    ((convert_to_rgba8888 ⟨[0, 1, 2, 3, 4, 5, 6, 7], 8⟩ 1 0 1 1).drop
        (0 * (1 * 4))).take (1 * 4)
      = ((Frame.mk [0, 1, 2, 3, 4, 5, 6, 7] 8).data0.drop
          ((0 + 0) * (Frame.mk [0, 1, 2, 3, 4, 5, 6, 7] 8).linesize
            + 1 * 4)).take (1 * 4) :=
  ⟨by decide,
   convert_nonzero_offset_rows ⟨[0, 1, 2, 3, 4, 5, 6, 7], 8⟩ 1 0 1 1
     (by decide) (by decide) (by decide) 0 (by decide)⟩

/-- Claim C5: for a fixed stream time base and a fixed positive playback
speed, the pacing deadline is monotonically non-decreasing in the packet
decode timestamp (for packets carrying a valid timestamp). -/
theorem deadline_us_mono (tb : TimeBase) (speed : ℚ) (t1 t2 : Int)
    (hnum : 0 ≤ tb.num) (hden : 0 < tb.den) (hspeed : 0 < speed)
    (h1 : t1 ≠ AV_NOPTS_VALUE) (h2 : t2 ≠ AV_NOPTS_VALUE) (h12 : t1 ≤ t2) :
    deadline_us t1 tb speed ≤ deadline_us t2 tb speed := by
  unfold deadline_us
  simp only [if_neg h1, if_neg h2]
  have hc : (0 : ℚ) ≤ (tb.num : ℚ) / (tb.den : ℚ) * 1000 * 1000 := by
    have hn : (0 : ℚ) ≤ (tb.num : ℚ) := by exact_mod_cast hnum
    have hd : (0 : ℚ) ≤ (tb.den : ℚ) := by exact_mod_cast le_of_lt hden
    positivity
  have hmul : (t1 : ℚ) * ((tb.num : ℚ) / (tb.den : ℚ) * 1000 * 1000)
      ≤ (t2 : ℚ) * ((tb.num : ℚ) / (tb.den : ℚ) * 1000 * 1000) :=
    mul_le_mul_of_nonneg_right (by exact_mod_cast h12) hc
  have hstep1 :
      ratTrunc ((t1 : ℚ) * ((tb.num : ℚ) / (tb.den : ℚ) * 1000 * 1000))
        ≤ ratTrunc ((t2 : ℚ) * ((tb.num : ℚ) / (tb.den : ℚ) * 1000 * 1000)) :=
    ratTrunc_mono hmul
  apply ratTrunc_mono
  apply div_le_div_of_nonneg_right ?_ (le_of_lt hspeed)
  exact_mod_cast hstep1

theorem deadline_us_mono_witness :
    deadline_us 0 ⟨1, 25⟩ 1 ≤ deadline_us 1 ⟨1, 25⟩ 1 :=
  deadline_us_mono ⟨1, 25⟩ 1 0 1 (by decide) (by decide) (by decide)
    (by decide) (by decide) (by decide)

/-- Claim C6: the pacing sleep happens only when the deadline minus the
elapsed playback-clock time is strictly positive, and then for exactly
that duration; a zero or negative difference returns immediately, no
negative-derived sleep is ever performed, and the frame is published
regardless (never skipped or dropped). -/
theorem wait_clamped_no_drop (dts : Int) (tb : TimeBase) (speed : ℚ)
    (elapsed_us : Int) :
    (0 < deadline_us dts tb speed - elapsed_us →
      (process_frame dts tb speed elapsed_us).slept_us
        = some (deadline_us dts tb speed - elapsed_us)) ∧
    (deadline_us dts tb speed - elapsed_us ≤ 0 →
      (process_frame dts tb speed elapsed_us).slept_us = none) ∧
    (∀ d, (process_frame dts tb speed elapsed_us).slept_us = some d → 0 < d) ∧
    (process_frame dts tb speed elapsed_us).published = true := by
  by_cases h : 0 < deadline_us dts tb speed - elapsed_us
  · refine ⟨fun _ => ?_, fun hle => absurd h (by omega), fun d hd => ?_, rfl⟩
    · simp [process_frame, sleep_to_pts, if_pos h]
      omega
    · simp [process_frame, sleep_to_pts, if_pos h] at hd
      omega
  · refine ⟨fun hlt => absurd hlt h, fun _ => ?_, fun d hd => ?_, rfl⟩
    · simp [process_frame, sleep_to_pts, if_neg h]
      omega
    · simp [process_frame, sleep_to_pts, if_neg h] at hd
      omega

theorem wait_clamped_no_drop_witness :
    (process_frame 1 ⟨1, 1⟩ 1 0).slept_us = some (deadline_us 1 ⟨1, 1⟩ 1 - 0) ∧
    (process_frame 1 ⟨1, 1⟩ 1 0).published = true :=
  ⟨(wait_clamped_no_drop 1 ⟨1, 1⟩ 1 0).1
      (by norm_num [deadline_us, ratTrunc, AV_NOPTS_VALUE]),
   (wait_clamped_no_drop 1 ⟨1, 1⟩ 1 0).2.2.2⟩

/-- Claim C7: in the inner drain loop, a would-block result
(`AVERROR(EAGAIN)`) and an end-of-stream result (`AVERROR_EOF`) each stop
the drain without being fatal, while any other receive failure is fatal:
it makes the packet-read loop return and the worker thread exit. -/
theorem receive_result_classification (rest : List Int) :
    drain (AVERROR_EAGAIN :: rest) = (false, 0) ∧
    drain (AVERROR_EOF :: rest) = (false, 0) ∧
    (∀ r, r < 0 → r ≠ AVERROR_EAGAIN → r ≠ AVERROR_EOF →
      drain (r :: rest) = (true, 0)) ∧
    (∀ sidx (e : PacketEnv) prest, e.pkt.stream_index = sidx →
      0 ≤ e.send_ret → (drain e.recvs).1 = true →
      run_pass sidx (e :: prest) = .exitThread) := by
  refine ⟨?_, ?_, ?_, ?_⟩
  · simp [drain]
  · norm_num [drain, AVERROR_EAGAIN, AVERROR_EOF]
  · intro r hr hne hnf
    simp [drain, if_neg hne, if_neg hnf, if_pos hr]
  · intro sidx e prest hs hsend hfatal
    simp [run_pass, read_loop, if_pos hs,
      if_neg (show ¬ e.send_ret < 0 by omega), hfatal]

theorem receive_result_classification_witness :
    drain [AVERROR_EAGAIN] = (false, 0) ∧
    drain [(-1 : Int)] = (true, 0) ∧
    run_pass 0 [⟨⟨0, 0⟩, 0, [-1]⟩] = ThreadStep.exitThread :=
  ⟨(receive_result_classification []).1,
   (receive_result_classification []).2.2.1 (-1) (by decide) (by decide)
     (by decide),
   (receive_result_classification []).2.2.2 0 ⟨⟨0, 0⟩, 0, [-1]⟩ []
     (by decide) (by decide) (by decide)⟩

/-- Claim C8: `get_video_buffer` before any frame has been converted
returns the null reference; after any conversion it returns the published
frame buffer. -/
theorem get_video_buffer_spec :
    get_video_buffer initState = none ∧
    (∀ f ox oy w h st, get_video_buffer (convertS f ox oy w h st)
        = some (convert_to_rgba8888 f ox oy w h)) ∧
    (∀ sess f st,
      (get_video_buffer (on_frame_decoded sess f st)).isSome = true) :=
  ⟨rfl, fun _ _ _ _ _ _ => rfl, fun _ _ _ => rfl⟩

/-- Claim C9: if any of `open_video_file`'s collaborator calls fails, it
returns a nonzero error code and the session globals are exactly as they
were before the call; they are written only on the all-success path. -/
theorem open_video_file_atomic (env : OpenEnv) (s : Session)
    (h : env.open_input_ret < 0 ∨ env.find_stream_info_ret < 0 ∨
      env.find_best_stream_ret < 0 ∨ env.alloc_context_ok = false ∨
      env.open2_ret < 0) :
    (open_video_file env s).1 ≠ 0 ∧ (open_video_file env s).2 = s := by
  unfold open_video_file
  split_ifs with h1 h2 h3 h4 h5
  · exact ⟨by simp, rfl⟩
  · exact ⟨by simpa using (by omega : env.find_stream_info_ret ≠ 0), rfl⟩
  · exact ⟨by simpa using (by omega : env.find_best_stream_ret ≠ 0), rfl⟩
  · exact ⟨by norm_num [AVERROR_ENOMEM], rfl⟩
  · exact ⟨by simpa using (by omega : env.open2_ret ≠ 0), rfl⟩
  · exfalso
    rcases h with h | h | h | h | h
    · exact h1 h
    · exact h2 h
    · exact h3 h
    · exact h4 h
    · exact h5 h

theorem open_video_file_atomic_witness :
    (open_video_file ⟨-1, 0, 0, 0, 0, true, 0, 0, 0, 0, 0⟩
        ⟨none, none, none, -1, 0, 0, 0, 0, 0⟩).1 ≠ 0 ∧
    (open_video_file ⟨-1, 0, 0, 0, 0, true, 0, 0, 0, 0, 0⟩
        ⟨none, none, none, -1, 0, 0, 0, 0, 0⟩).2
      = ⟨none, none, none, -1, 0, 0, 0, 0, 0⟩ :=
  open_video_file_atomic ⟨-1, 0, 0, 0, 0, true, 0, 0, 0, 0, 0⟩
    ⟨none, none, none, -1, 0, 0, 0, 0, 0⟩ (Or.inl (by decide))

/-- Claim C10: a successful `open_video_file` sets the crop rectangle to
the full source dimensions, so the crop offsets computed by
`on_frame_decoded` are both zero and every conversion takes the
zero-offset bulk-copy fast path (the per-row cropping path never runs). -/
theorem crop_offsets_zero_fast_path (env : OpenEnv) (s0 : Session)
    (h : (open_video_file env s0).1 = 0) :
    crop_offsets (open_video_file env s0).2 = (0, 0) ∧
    ∀ f st, on_frame_decoded (open_video_file env s0).2 f st
        = { decode_buf := some (memBytes f 0
            ((open_video_file env s0).2.crop_w.toNat *
              (open_video_file env s0).2.crop_h.toNat * 4)) } := by
  unfold open_video_file at h ⊢
  split_ifs at h ⊢ with h1 h2 h3 h4 h5
  · exact absurd h (by simp)
  · exact absurd h (by simpa using (by omega : env.find_stream_info_ret ≠ 0))
  · exact absurd h (by simpa using (by omega : env.find_best_stream_ret ≠ 0))
  · exact absurd h (by norm_num [AVERROR_ENOMEM])
  · exact absurd h (by simpa using (by omega : env.open2_ret ≠ 0))
  · constructor
    · simp [crop_offsets]
    · intro f st
      simp [on_frame_decoded, convertS, crop_offsets, convert_to_rgba8888]

theorem crop_offsets_zero_fast_path_witness :
    crop_offsets (open_video_file ⟨0, 7, 0, 0, 3, true, 5, 0, 2, 2, 23⟩
        ⟨none, none, none, -1, 0, 0, 0, 0, 0⟩).2 = (0, 0) :=
  (crop_offsets_zero_fast_path ⟨0, 7, 0, 0, 3, true, 5, 0, 2, 2, 23⟩
    ⟨none, none, none, -1, 0, 0, 0, 0, 0⟩ (by decide)).1

/-- Claim C1 counterexample: selected stream index 0, a first packet of
that stream whose submit fails (`send_ret = -1`) followed by a second
well-formed packet.  The read loop exits via the submit-failure `break`
without ever reaching the second packet (which is never unrefed), so a
submit failure does end the current playback pass instead of continuing
with the next packet. -/
theorem submit_failure_counterexample :
    read_loop 0 [⟨⟨0, 0⟩, -1, []⟩, ⟨⟨0, 5⟩, 0, []⟩]
      = { unrefed := [], published := 0, exit := .submitError } ∧
    Packet.mk 0 5 ∉ (read_loop 0 [⟨⟨0, 0⟩, -1, []⟩, ⟨⟨0, 5⟩, 0, []⟩]).unrefed := by
  decide

/-- Claim C1 amended: a failed submit of a selected-stream packet is
logged and executes `break`, which leaves the whole packet-read loop:
the decode attempt is abandoned, no further packet of the pass is read
(and the failing packet is not released), the pass ends early, and the
worker thread then runs the flush/seek path and restarts a new pass
rather than exiting. -/
theorem submit_failure_breaks_pass (sidx : Int) (e : PacketEnv)
    (rest : List PacketEnv) (hs : e.pkt.stream_index = sidx)
    (hfail : e.send_ret < 0) :
    read_loop sidx (e :: rest)
      = { unrefed := [], published := 0, exit := .submitError } ∧
    run_pass sidx (e :: rest) = .restart := by
  have hloop : read_loop sidx (e :: rest)
      = { unrefed := [], published := 0, exit := .submitError } := by
    simp [read_loop, if_pos hs, if_pos hfail]
  exact ⟨hloop, by simp [run_pass, hloop]⟩

theorem submit_failure_breaks_pass_witness :
    read_loop 0 [⟨⟨0, 3⟩, -22, []⟩]
      = { unrefed := [], published := 0, exit := .submitError } ∧
    run_pass 0 [⟨⟨0, 3⟩, -22, []⟩] = .restart :=
  submit_failure_breaks_pass 0 ⟨⟨0, 3⟩, -22, []⟩ [] (by decide) (by decide)

/-- Claim C2 counterexample: a single selected-stream packet whose submit
fails is read but never passed to `av_packet_unref` — the submit-failure
`break` leaves the read loop before the unconditional unref line. -/
theorem unref_skipped_counterexample :
    (read_loop 0 [⟨⟨0, 0⟩, -1, []⟩]).unrefed = [] ∧
    Packet.mk 0 0 ∉ (read_loop 0 [⟨⟨0, 0⟩, -1, []⟩]).unrefed := by
  decide

/-- Claim C2 amended: the read loop releases every packet it reads, in
order, on every control path except two: the submit-failure `break` and
the fatal receive-error `return`, each of which leaves the loop without
releasing the current packet.  In particular, on any pass in which no
submit failure and no fatal receive occurs, every packet read is
released before the next read. -/
theorem packet_release_paths (sidx : Int) (trace : List PacketEnv) :
    ((∀ e ∈ trace, e.pkt.stream_index = sidx →
        0 ≤ e.send_ret ∧ (drain e.recvs).1 = false) →
      (read_loop sidx trace).unrefed = trace.map (fun e => e.pkt)) ∧
    (∀ (e : PacketEnv) rest, e.pkt.stream_index = sidx → e.send_ret < 0 →
      (read_loop sidx (e :: rest)).unrefed = []) ∧
    (∀ (e : PacketEnv) rest, e.pkt.stream_index = sidx → 0 ≤ e.send_ret →
      (drain e.recvs).1 = true → (read_loop sidx (e :: rest)).unrefed = []) := by
  refine ⟨?_, ?_, ?_⟩
  · induction trace with
    | nil => intro _; rfl
    | cons e rest ih =>
        intro h
        have hrest := ih (fun x hx => h x (List.mem_cons_of_mem e hx))
        by_cases hs : e.pkt.stream_index = sidx
        · obtain ⟨hsend, hdrain⟩ := h e (List.mem_cons_self e rest) hs
          simp [read_loop, if_pos hs,
            if_neg (show ¬ e.send_ret < 0 by omega), hdrain, hrest]
        · simp [read_loop, if_neg hs, hrest]
  · intro e rest hs hfail
    simp [read_loop, if_pos hs, if_pos hfail]
  · intro e rest hs hsend hfatal
    simp [read_loop, if_pos hs,
      if_neg (show ¬ e.send_ret < 0 by omega), hfatal]

theorem packet_release_paths_witness :
    (read_loop 0 [⟨⟨0, 1⟩, 0, []⟩, ⟨⟨1, 2⟩, -1, []⟩]).unrefed
      = [Packet.mk 0 1, Packet.mk 1 2] ∧
    (read_loop 0 [⟨⟨0, 9⟩, -1, []⟩]).unrefed = [] :=
  ⟨(packet_release_paths 0 [⟨⟨0, 1⟩, 0, []⟩, ⟨⟨1, 2⟩, -1, []⟩]).1 (by decide),
   (packet_release_paths 0 []).2.1 ⟨⟨0, 9⟩, -1, []⟩ [] (by decide) (by decide)⟩

end VideoDecode
